import Mathlib

/-!
# Verification of the LLM Council deliberation orchestrator

A shallow embedding of the core logic of `backend/council.py`,
`backend/config.py` and `backend/schemas.py`, together with theorems
settling the specification claims about it.

Python text is modelled as `List Char` (one element per Unicode code
point, matching Python's `str` indexing and `len`).  Python floats that
only ever hold decimal literals and JSON numbers are modelled as `ℚ`.
A Python expression that can raise an exception not caught by the code
under scrutiny is modelled as an `Option`, with `none` standing for the
uncaught exception.
-/

namespace Council

/-- Python strings are sequences of code points; we embed them as lists of
characters (faithful below the surrogate range, which covers every string
the program manipulates). -/
abbrev Str := List Char

/-- `str.strip()` on the left: drop leading whitespace. -/
def stripLeft (s : Str) : Str := s.dropWhile Char.isWhitespace

/-- `str.strip()`: drop leading and trailing whitespace (Python strips a
slightly larger whitespace set, e.g. `\x0b`; the difference is irrelevant
to the texts handled here). -/
def pyStrip (s : Str) : Str := ((stripLeft s).reverse.dropWhile Char.isWhitespace).reverse

/-- `s.split(sep)` for a one-character separator `c`: chunks between
occurrences of `c`, empty chunks included; `[s]` when `c` is absent
(`List.splitOn` has exactly Python's semantics here). -/
def splitChar (c : Char) (s : Str) : List Str := s.splitOn c

/-- `s.split("\n", 1)[1]`: the text after the first newline.  `none` models
the `IndexError` Python raises when `s` contains no newline (the `split`
result then has a single element). -/
def afterFirstNewline : Str → Option Str
  | [] => none
  | a :: as => if a = '\n' then some as else afterFirstNewline as

/-- `"\n".join(lines)`. -/
def joinLines (lines : List Str) : Str := List.intercalate ['\n'] lines

/-- `s[:-n]` for `n ≤ len(s)`: drop the last `n` characters. -/
def pyDropRight (n : Nat) (s : Str) : Str := s.take (s.length - n)

/-- Decimal rendering of a natural number, as used by Python f-string
interpolation of an `int`. -/
def natStr (n : Nat) : Str := (Nat.repr n).data

/-- `schemas.StageType`. -/
inductive StageType where
  | initial
  | discussion
  | consensus
deriving DecidableEq

/-- One entry of `config.COUNCIL_MODELS`: a model descriptor dict with the
keys the council code reads. -/
structure Model where
  id : Str
  name : Str
  role : Str
  color : Str
deriving DecidableEq

/-- `schemas.ModelMessageResponse` (the AgentTurn record of the spec). -/
structure ModelMessageResponse where
  model_id : Str
  model_name : Str
  model_color : Str
  content : Str
  confidence : ℚ
  key_points : List Str
  stage : StageType
  round_number : Nat
deriving DecidableEq

/-- `schemas.DiscussionRound`. -/
structure DiscussionRound where
  round_number : Nat
  responses : List ModelMessageResponse
deriving DecidableEq

/-- `schemas.ConsensusResponse`. -/
structure ConsensusResponse where
  final_answer : Str
  consensus_reached : Bool
  summary : Str
  key_agreements : List Str
  key_disagreements : List Str
deriving DecidableEq

/-- The outcome of one `Completion Gateway` call as seen by the result
loops of `council.py`: `asyncio.gather(..., return_exceptions=True)` hands
back either the completion text or the exception object
(`isinstance(result, Exception)`); `err` carries `str(result)`. -/
inductive GatewayResult where
  | ok (text : Str)
  | err (msg : Str)
deriving DecidableEq

/-- `config.MAX_DISCUSSION_ROUNDS`. -/
def MAX_DISCUSSION_ROUNDS : Nat := 3

/-- `config.COUNCIL_MODELS`. -/
def COUNCIL_MODELS : List Model :=
  [ { id := "openai/gpt-5.1".data
    , name := "GPT-5.1".data
    , role := "chairman".data
    , color := "#10a37f".data }
  , { id := "google/gemini-3-pro-preview".data
    , name := "Gemini 3 Pro".data
    , role := "participant".data
    , color := "#4285f4".data } ]

/-- `config.CHAIRMAN_MODEL = next(m for m in COUNCIL_MODELS if m["role"] ==
"chairman")`: Python's `next` over the filtering generator returns the
first match and raises `StopIteration` (import-time crash, so the process
cannot start) when there is none; the crash is modelled by `none`. -/
def chairmanModel (models : List Model) : Option Model :=
  models.find? (fun m => m.role == "chairman".data)

/-- `CouncilOrchestrator._anonymize_model_name`: `f"Модель {chr(1040 + index)}"`.
`Char.ofNat` agrees with Python's `chr` for every code point below the
surrogate range, which covers any realistic roster position. -/
def anonymizeModelName (index : Nat) : Str :=
  "Модель ".data ++ [Char.ofNat (1040 + index)]

/-- The `(index, (model, response))` pairs that survive the
`exclude_index` test inside `_format_responses_for_discussion`
(the loop `continue`s exactly when `exclude_index is not None and
i == exclude_index`). -/
def discussionPeerEntries (responses : List (Model × Str)) (excludeIndex : Option Nat) :
    List (Nat × (Model × Str)) :=
  responses.enum.filter (fun p => excludeIndex != some p.1)

/-- `CouncilOrchestrator._format_responses_for_discussion`. -/
def formatResponsesForDiscussion (responses : List (Model × Str)) (excludeIndex : Option Nat) :
    Str :=
  joinLines ((discussionPeerEntries responses excludeIndex).map
    (fun p => "=== ".data ++ anonymizeModelName p.1 ++ " ===\n".data ++ p.2.2 ++ "\n".data))

/-- The index lookup `next(i for i, m in enumerate(self.models) if
m["name"] == resp.model_name)` inside `run_discussion_round`.  The source
raises `StopIteration` when the name is absent; every response processed
there carries the name of a roster model, and `List.findIdx` agrees with
the source on that domain. -/
def modelIdxByName (models : List Model) (name : Str) : Nat :=
  models.findIdx (fun m => m.name == name)

/-- The fragment `run_discussion_round` appends to `discussion_context`
for one previous round (lines 226–231 of `council.py`). -/
def discussionContextOfRound (models : List Model) (r : DiscussionRound) : Str :=
  "\n=== Раунд обсуждения ".data ++ natStr r.round_number ++ " ===\n".data ++
    (r.responses.map (fun resp =>
      anonymizeModelName (modelIdxByName models resp.model_name) ++ ": ".data ++
        resp.content ++ "\n".data)).flatten

/-- The full `discussion_context` accumulated over `previous_rounds`. -/
def discussionContext (models : List Model) (previousRounds : List DiscussionRound) : Str :=
  (previousRounds.map (discussionContextOfRound models)).flatten

/-- The user-message content `run_discussion_round` builds for the agent at
position `i` (lines 244–249 of `council.py`): the question, the anonymized
initial responses of the *other* agents, and the anonymized previous
rounds. -/
def discussionUserContent (models : List Model) (userQuery : Str)
    (allResponses : List (Model × Str)) (previousRounds : List DiscussionRound)
    (i : Nat) : Str :=
  "Исходный вопрос: ".data ++ userQuery ++ "\n\n".data ++
    "=== Начальные ответы ===\n".data ++
    formatResponsesForDiscussion allResponses (some i) ++ "\n".data ++
    discussionContext models previousRounds ++ "\n".data ++
    "Пожалуйста, дай свой уточнённый ответ в формате JSON.".data

/-- The markdown-code-block cleanup of `run_discussion_round` (lines
272–276): strip, and when the text opens with a fence drop its first line
and, when it also ends with a fence, its last three characters.  `none`
models the *uncaught* `IndexError` of `clean_result.split("\n", 1)[1]`
when the stripped text opens with a fence but contains no newline
(`IndexError` is not in the `except` clause). -/
def stripCodeFence (s : Str) : Option Str :=
  let clean := pyStrip s
  if "```".data.isPrefixOf clean then
    match afterFirstNewline clean with
    | none => none
    | some rest =>
      some (if "```".data.isSuffixOf rest then pyDropRight 3 rest else rest)
  else
    some clean

/-- What `json.loads` followed by the three `parsed.get` calls yields, as
an abstract collaborator: `none` stands for `json.JSONDecodeError` (text
is not valid JSON) *and* for the `AttributeError` of calling `.get` on a
decoded non-object — both members of the `except` tuple; `some p` stands
for a decoded JSON object whose `"content"`, `"confidence"` and
`"key_points"` entries are the fields of `p` (a missing key is `none`). -/
structure ParsedPayload where
  content : Option Str
  confidence : Option ℚ
  key_points : Option (List Str)

/-- An abstract `json.loads`-plus-field-extraction collaborator. -/
abbrev JsonLoads := Str → Option ParsedPayload

/-- The `try` block of `run_discussion_round` (lines 269–285): fence
cleanup, JSON decode, field extraction with defaults, and the lenient
fallback `(result, 0.8, [])` on decode failure.  The result triple is
`(content, confidence, key_points)`; `none` is the uncaught
`IndexError` of the fence cleanup. -/
def parseDiscussionResult (jsonLoads : JsonLoads) (result : Str) :
    Option (Str × ℚ × List Str) :=
  match stripCodeFence result with
  | none => none
  | some clean =>
    match jsonLoads clean with
    | some parsed =>
      some (parsed.content.getD result, parsed.confidence.getD (8/10),
        parsed.key_points.getD [])
    | none => some (result, 8/10, [])

/-- One iteration of the result loop of `run_discussion_round` (lines
263–304): an exception from the gateway becomes a degraded turn with the
error marker, confidence `0` and no key points; a text goes through the
lenient JSON parse.  `none` is the uncaught `IndexError` of the parse. -/
def processDiscussionResult (jsonLoads : JsonLoads) (model : Model)
    (roundNumber : Nat) (result : GatewayResult) : Option ModelMessageResponse :=
  match result with
  | .err msg =>
    some { model_id := model.id
         , model_name := model.name
         , model_color := model.color
         , content := "Ошибка: ".data ++ msg
         , confidence := 0
         , key_points := []
         , stage := .discussion
         , round_number := roundNumber }
  | .ok text =>
    (parseDiscussionResult jsonLoads text).map (fun r =>
      { model_id := model.id
      , model_name := model.name
      , model_color := model.color
      , content := r.1
      , confidence := r.2.1
      , key_points := r.2.2
      , stage := .discussion
      , round_number := roundNumber })

/-- The whole result loop of `run_discussion_round` over
`zip(self.models, results)`; the loop appends one turn per pair and an
uncaught exception anywhere aborts the stage (`none`). -/
def processDiscussionResults (jsonLoads : JsonLoads) (models : List Model)
    (results : List GatewayResult) (roundNumber : Nat) :
    Option (List ModelMessageResponse) :=
  match models, results with
  | [], _ => some []
  | _, [] => some []
  | m :: ms, r :: rs =>
    match processDiscussionResult jsonLoads m roundNumber r,
        processDiscussionResults jsonLoads ms rs roundNumber with
    | some t, some ts => some (t :: ts)
    | _, _ => none

/-- One iteration of the result loop of `run_initial_stage` (lines
172–198): no parsing, fixed confidence `0.8` on success and the degraded
turn on failure, `stage = initial`, `round_number = 0`. -/
def processInitialResult (model : Model) (result : GatewayResult) :
    ModelMessageResponse :=
  match result with
  | .err msg =>
    { model_id := model.id
    , model_name := model.name
    , model_color := model.color
    , content := "Ошибка: ".data ++ msg
    , confidence := 0
    , key_points := []
    , stage := .initial
    , round_number := 0 }
  | .ok text =>
    { model_id := model.id
    , model_name := model.name
    , model_color := model.color
    , content := text
    , confidence := 8/10
    , key_points := []
    , stage := .initial
    , round_number := 0 }

/-- The list of turns `run_initial_stage` returns, given the gateway
results (one per roster model, in roster order). -/
def runInitialStageTurns (models : List Model) (results : List GatewayResult) :
    List ModelMessageResponse :=
  (models.zip results).map (fun p => processInitialResult p.1 p.2)

/-- `sum(r.confidence for r in round_result.responses) /
len(round_result.responses)` (the source raises `ZeroDivisionError` on an
empty round; `ℚ` division gives `0` there, and every round the loop builds
has one response per roster model). -/
def avgConfidence (responses : List ModelMessageResponse) : ℚ :=
  ((responses.map (fun r => r.confidence)).sum) / responses.length

/-- The discussion loop of `run_full_council` (lines 404–418):
`for round_num in range(1, maxRounds + 1)` with a `break` once the round's
average confidence exceeds `0.95`.  `mkRound roundNum prev` abstracts what
`run_discussion_round` returns for round `roundNum` given the accumulated
`prev` rounds; `fuel` is the number of loop iterations still allowed. -/
def runDiscussionLoop (mkRound : Nat → List DiscussionRound → DiscussionRound) :
    Nat → Nat → List DiscussionRound → List DiscussionRound
  | 0, _, acc => acc
  | fuel + 1, roundNum, acc =>
    let r := mkRound roundNum acc
    let acc' := acc ++ [r]
    if avgConfidence r.responses > 95/100 then acc'
    else runDiscussionLoop mkRound fuel (roundNum + 1) acc'

/-- The `discussion_rounds` list `run_full_council` ends up with. -/
def runFullCouncilRounds (mkRound : Nat → List DiscussionRound → DiscussionRound)
    (maxRounds : Nat) : List DiscussionRound :=
  runDiscussionLoop mkRound maxRounds 1 []

/-- The final-answer cleanup of `run_consensus_stage` (lines 358–364):
strip the raw chairman text; when it both starts and ends with a fence,
drop its first and last lines and strip again. -/
def stripConsensusAnswer (result : Str) : Str :=
  let finalAnswer := pyStrip result
  if "```".data.isPrefixOf finalAnswer && "```".data.isSuffixOf finalAnswer then
    pyStrip (joinLines ((splitChar '\n' finalAnswer).drop 1).dropLast)
  else finalAnswer

/-- The `ConsensusResponse` built by `run_consensus_stage` (lines
366–372) from the raw chairman text. -/
def runConsensusResponse (result : Str) : ConsensusResponse :=
  { final_answer := stripConsensusAnswer result
  , consensus_reached := true
  , summary := "Консенсус достигнут".data
  , key_agreements := []
  , key_disagreements := [] }

/-- One chat message as `_format_chat_history_toon` reads it
(`msg.get("role", "user")`, `msg.get("content", "")`). -/
structure ChatMessage where
  role : Str
  content : Str
deriving DecidableEq

/-- The `"[... ранние сообщения опущены ...]"` truncation marker. -/
def omittedMarker : Str := "[... ранние сообщения опущены ...]".data

/-- The header line `"=== История чата ==="`. -/
def historyHeader : Str := "=== История чата ===".data

/-- The line `_format_chat_history_toon` builds for one message: role
prefix, newline-flattened and stripped content, truncated to 500
characters plus `"[...]"` when longer than 500. -/
def toonLine (msg : ChatMessage) : Str :=
  let rolePre := if msg.role == "user".data then "[U]".data else "[A]".data
  let content := pyStrip (msg.content.map (fun c => if c = '\n' then ' ' else c))
  let content := if content.length > 500 then content.take 500 ++ "[...]".data else content
  rolePre ++ " ".data ++ content

/-- The message-line loop of `_format_chat_history_toon` (lines 109–125):
take messages in order while the running total of message-line lengths
stays within `maxChars`; on overflow, append the omission marker and
stop. -/
def toonLoop (msgs : List ChatMessage) (maxChars : Nat) (total : Nat) : List Str :=
  match msgs with
  | [] => []
  | m :: rest =>
    let line := toonLine m
    if total + line.length > maxChars then [omittedMarker]
    else line :: toonLoop rest maxChars (total + line.length)

/-- `CouncilOrchestrator._format_chat_history_toon`. -/
def formatChatHistoryToon (msgs : List ChatMessage) (maxChars : Nat := 3000) : Str :=
  if msgs.isEmpty then []
  else joinLines (historyHeader :: toonLoop msgs maxChars 0)

/-! ## General-purpose lemmas about the text helpers -/

/-- `Char.ofNat` really packs the code point below the surrogate range. -/
theorem toNat_charOfNat {n : Nat} (h : n < 55296) : (Char.ofNat n).toNat = n := by
  have hv : n.isValidChar := Or.inl h
  rw [Char.ofNat, dif_pos hv]
  rfl

/-- `Char.ofNat` is strictly monotone below the surrogate range. -/
theorem charOfNat_lt_charOfNat {m n : Nat} (hmn : m < n) (hn : n < 55296) :
    Char.ofNat m < Char.ofNat n := by
  show (Char.ofNat m).toNat < (Char.ofNat n).toNat
  rw [toNat_charOfNat (Nat.lt_trans hmn hn), toNat_charOfNat hn]
  exact hmn

/-- Appending strictly smaller last characters to a common front yields
lexicographically smaller lists. -/
theorem append_singleton_lt_append_singleton {a b : Char} (front : Str) (h : a < b) :
    front ++ [a] < front ++ [b] := by
  induction front with
  | nil => exact List.Lex.rel h
  | cons c cs ih => exact List.Lex.cons ih

theorem append_singleton_ne_append_singleton {a b : Char} (front : Str) (h : a ≠ b) :
    front ++ [a] ≠ front ++ [b] := by
  intro he
  exact h (List.singleton_injective (List.append_cancel_left he))

/-! ## C9: the anonymizer -/

/-- C9.  The label function `_anonymize_model_name` is a pure function of
the position, injective and strictly order-preserving (in the
lexicographic order on strings): distinct positions give distinct labels
and the label sequence strictly increases with position.  The guard
`1040 + j < 55296` keeps the positions inside the range where the Lean
character type coincides with Python's `chr`; it covers every roster the
program can meaningfully hold. -/
theorem c9_anonymize_injective_strict_mono (i j : Nat) (hij : i < j)
    (hj : 1040 + j < 55296) :
    anonymizeModelName i ≠ anonymizeModelName j ∧
      anonymizeModelName i < anonymizeModelName j := by
  have hlt : Char.ofNat (1040 + i) < Char.ofNat (1040 + j) :=
    charOfNat_lt_charOfNat (by omega) hj
  constructor
  · exact append_singleton_ne_append_singleton _ (Char.ne_of_lt hlt)
  · exact append_singleton_lt_append_singleton _ hlt

/-- C9 witness: positions 0 and 1 give the concrete labels
`"Модель А"` and `"Модель Б"`, distinct and in increasing order. -/
theorem c9_witness :
    (0 < 1 ∧ 1040 + 1 < 55296) ∧
      (anonymizeModelName 0 ≠ anonymizeModelName 1 ∧
        anonymizeModelName 0 < anonymizeModelName 1) :=
  ⟨by decide, c9_anonymize_injective_strict_mono 0 1 (by decide) (by decide)⟩

/-! ## C1: self-exclusion of the peer context -/

/-- A prior-round turn of the first roster model (GPT-5.1), used to show
that the prior-round portion of the peer context is *not*
self-excluded. -/
def gptPriorTurn : ModelMessageResponse :=
  { model_id := "openai/gpt-5.1".data
  , model_name := "GPT-5.1".data
  , model_color := "#10a37f".data
  , content := "SELF0".data
  , confidence := 8/10
  , key_points := []
  , stage := .discussion
  , round_number := 1 }

/-- A prior-round turn of the second roster model. -/
def gemPriorTurn : ModelMessageResponse :=
  { model_id := "google/gemini-3-pro-preview".data
  , model_name := "Gemini 3 Pro".data
  , model_color := "#4285f4".data
  , content := "OTHER1".data
  , confidence := 8/10
  , key_points := []
  , stage := .discussion
  , round_number := 1 }

/-- A completed discussion round 1 over the configured roster. -/
def priorRound : DiscussionRound := { round_number := 1, responses := [gptPriorTurn, gemPriorTurn] }

set_option maxRecDepth 40000 in
/-- C1 counterexample: in round 2, the context string built for agent 0
contains agent 0's own round-1 content verbatim — `run_discussion_round`
passes `exclude_index` only when formatting the *initial* responses and
builds one shared `discussion_context` holding every agent's prior-round
output. -/
theorem c1_counterexample :
    gptPriorTurn.model_name = "GPT-5.1".data ∧
      (COUNCIL_MODELS.map (fun m => m.name))[0]? = some ("GPT-5.1".data) ∧
      gptPriorTurn.content <:+:
        discussionUserContent COUNCIL_MODELS ("q".data)
          (COUNCIL_MODELS.zip ["I0".data, "I1".data]) [priorRound] 0 := by
  decide

/-- C1 amended.  The *initial-responses* block built for agent `i` is
self-excluding: every entry `_format_responses_for_discussion` keeps when
called with `exclude_index = i` comes from a position other than `i`.
The *prior-round* block is not: the fragment built for a previous round
embeds the content of every one of that round's responses — including the
requesting agent's own. -/
theorem c1_peer_context_amended :
    (∀ (responses : List (Model × Str)) (i : Nat) (p : Nat × (Model × Str)),
        p ∈ discussionPeerEntries responses (some i) → p.1 ≠ i) ∧
    (∀ (models : List Model) (r : DiscussionRound) (resp : ModelMessageResponse),
        resp ∈ r.responses → resp.content <:+: discussionContextOfRound models r) := by
  constructor
  · intro responses i p hp
    have h := (List.mem_filter.mp hp).2
    simp only [bne_iff_ne, ne_eq, Option.some.injEq] at h
    exact fun he => h he.symm
  · intro models r resp hresp
    have hmem :
        (anonymizeModelName (modelIdxByName models resp.model_name) ++ ": ".data ++
            resp.content ++ "\n".data) ∈
          r.responses.map (fun t =>
            anonymizeModelName (modelIdxByName models t.model_name) ++ ": ".data ++
              t.content ++ "\n".data) :=
      List.mem_map_of_mem _ hresp
    have h2 : resp.content <:+:
        anonymizeModelName (modelIdxByName models resp.model_name) ++ ": ".data ++
          resp.content ++ "\n".data :=
      ⟨anonymizeModelName (modelIdxByName models resp.model_name) ++ ": ".data,
        "\n".data, rfl⟩
    obtain ⟨s, t, he⟩ := h2.trans ( List.infix_of_mem_flatten hmem)
    exact ⟨("\n=== Раунд обсуждения ".data ++ natStr r.round_number ++ " ===\n".data) ++ s, t,
      by simp only [discussionContextOfRound]; rw [← he]; simp [List.append_assoc]⟩

/-- A one-turn round over a two-model roster, for the C1 witness. -/
def exRoundResp : ModelMessageResponse :=
  { model_id := "a".data, model_name := "A".data, model_color := "#".data
  , content := "SELF".data, confidence := 8/10, key_points := []
  , stage := .discussion, round_number := 1 }

/-- Two small roster models for the C1 witness. -/
def exmA : Model := { id := "a".data, name := "A".data, role := "participant".data, color := "#".data }

def exmB : Model := { id := "b".data, name := "B".data, role := "participant".data, color := "#".data }

/-- C1 witness: both halves of the amended claim evaluated at concrete
inputs. -/
theorem c1_witness :
    ((1, (exmB, "I1".data)) ∈
        discussionPeerEntries [(exmA, "I0".data), (exmB, "I1".data)] (some 0) ∧
      (1, (exmB, "I1".data)).1 ≠ 0) ∧
    (exRoundResp ∈ (DiscussionRound.mk 1 [exRoundResp]).responses ∧
      exRoundResp.content <:+:
        discussionContextOfRound [exmA, exmB] (DiscussionRound.mk 1 [exRoundResp])) :=
  ⟨⟨by decide,
      c1_peer_context_amended.1 [(exmA, "I0".data), (exmB, "I1".data)] 0
        (1, (exmB, "I1".data)) (by decide)⟩,
    ⟨List.mem_cons_self _ _,
      c1_peer_context_amended.2 [exmA, exmB] (DiscussionRound.mk 1 [exRoundResp]) exRoundResp
        (List.mem_cons_self _ _)⟩⟩

/-! ## C2: the discussion loop -/

/-- Proof companion of `runDiscussionLoop` returning only the rounds
produced by the remaining iterations (not the accumulator). -/
def loopRoundsAux (mkRound : Nat → List DiscussionRound → DiscussionRound) :
    Nat → Nat → List DiscussionRound → List DiscussionRound
  | 0, _, _ => []
  | fuel + 1, roundNum, acc =>
    let r := mkRound roundNum acc
    if avgConfidence r.responses > 95/100 then [r]
    else r :: loopRoundsAux mkRound fuel (roundNum + 1) (acc ++ [r])

theorem runDiscussionLoop_eq_append
    (mkRound : Nat → List DiscussionRound → DiscussionRound) :
    ∀ (fuel roundNum : Nat) (acc : List DiscussionRound),
      runDiscussionLoop mkRound fuel roundNum acc =
        acc ++ loopRoundsAux mkRound fuel roundNum acc := by
  intro fuel
  induction fuel with
  | zero => intro roundNum acc; simp [runDiscussionLoop, loopRoundsAux]
  | succ f ih =>
    intro roundNum acc
    simp only [runDiscussionLoop, loopRoundsAux]
    by_cases h : avgConfidence (mkRound roundNum acc).responses > 95/100
    · simp [h]
    · simp only [h, if_false, ih]
      simp [List.append_assoc]

theorem loopRoundsAux_spec (mkRound : Nat → List DiscussionRound → DiscussionRound) :
    ∀ (fuel : Nat), 1 ≤ fuel → ∀ (roundNum : Nat) (acc : List DiscussionRound),
      (1 ≤ (loopRoundsAux mkRound fuel roundNum acc).length ∧
        (loopRoundsAux mkRound fuel roundNum acc).length ≤ fuel) ∧
      (∀ (j : Nat), j + 1 < (loopRoundsAux mkRound fuel roundNum acc).length →
        ∃ round, (loopRoundsAux mkRound fuel roundNum acc)[j]? = some round ∧
          avgConfidence round.responses ≤ 95/100) ∧
      ((loopRoundsAux mkRound fuel roundNum acc).length = fuel ∨
        ∃ lastRound, (loopRoundsAux mkRound fuel roundNum acc).getLast? = some lastRound ∧
          avgConfidence lastRound.responses > 95/100) := by
  intro fuel
  induction fuel with
  | zero => intro h; omega
  | succ f ih =>
    intro _ roundNum acc
    by_cases h : avgConfidence (mkRound roundNum acc).responses > 95/100
    · refine ⟨⟨?_, ?_⟩, ?_, Or.inr ⟨mkRound roundNum acc, ?_, h⟩⟩ <;>
        simp [loopRoundsAux, h]
    · rcases Nat.eq_zero_or_pos f with hf | hf
      · subst hf
        refine ⟨⟨?_, ?_⟩, ?_, Or.inl ?_⟩ <;> simp [loopRoundsAux, h]
      · obtain ⟨⟨hlen1, hlen2⟩, hmid, hlast⟩ := ih hf (roundNum + 1) (acc ++ [mkRound roundNum acc])
        have hexp : loopRoundsAux mkRound (f + 1) roundNum acc =
            mkRound roundNum acc ::
              loopRoundsAux mkRound f (roundNum + 1) (acc ++ [mkRound roundNum acc]) := by
          simp [loopRoundsAux, h]
        refine ⟨⟨?_, ?_⟩, ?_, ?_⟩
        · rw [hexp]; simp
        · rw [hexp]; simpa using hlen2
        · intro j hj
          rw [hexp] at hj ⊢
          match j with
          | 0 => exact ⟨mkRound roundNum acc, by simp, le_of_not_lt h⟩
          | j + 1 =>
            simp only [List.length_cons, Nat.add_lt_add_iff_right] at hj
            obtain ⟨round, hq, hle⟩ := hmid j hj
            exact ⟨round, by simpa using hq, hle⟩
        · rcases hlast with hfull | ⟨lastRound, hsome, hgt⟩
          · refine Or.inl ?_
            rw [hexp]; simp [hfull]
          · refine Or.inr ⟨lastRound, ?_, hgt⟩
            rw [hexp]
            rw [List.getLast?_cons]
            have hne : loopRoundsAux mkRound f (roundNum + 1)
                (acc ++ [mkRound roundNum acc]) ≠ [] :=
              List.ne_nil_of_length_pos hlen1
            simp [hsome, Option.getD, hne]

/-- C2.  For every positive `maxRounds` and every behaviour of
`run_discussion_round` (abstracted as `mkRound`), the loop of
`run_full_council` produces between 1 and `maxRounds` rounds; every round
except possibly the last has mean confidence ≤ 0.95 (so the loop never
runs past the *first* high-confidence round), and the loop stops either
because the last round's mean confidence exceeds 0.95 or because it
reached `maxRounds`. -/
theorem c2_discussion_loop_bounds
    (mkRound : Nat → List DiscussionRound → DiscussionRound) (maxRounds : Nat)
    (hmax : 1 ≤ maxRounds) :
    (1 ≤ (runFullCouncilRounds mkRound maxRounds).length ∧
      (runFullCouncilRounds mkRound maxRounds).length ≤ maxRounds) ∧
    (∀ (j : Nat), j + 1 < (runFullCouncilRounds mkRound maxRounds).length →
      ∃ round, (runFullCouncilRounds mkRound maxRounds)[j]? = some round ∧
        avgConfidence round.responses ≤ 95/100) ∧
    ((runFullCouncilRounds mkRound maxRounds).length = maxRounds ∨
      ∃ lastRound, (runFullCouncilRounds mkRound maxRounds).getLast? = some lastRound ∧
        avgConfidence lastRound.responses > 95/100) := by
  have heq : runFullCouncilRounds mkRound maxRounds =
      loopRoundsAux mkRound maxRounds 1 [] := by
    rw [runFullCouncilRounds, runDiscussionLoop_eq_append]
    simp
  rw [heq]
  exact loopRoundsAux_spec mkRound maxRounds hmax 1 []

/-- A constant abstract round with mean confidence 0.8, for the C2
witness. -/
def constantRound (roundNum : Nat) (_ : List DiscussionRound) : DiscussionRound :=
  { round_number := roundNum, responses := [exRoundResp] }

/-- C2 witness: with three allowed rounds and constant confidence 0.8 the
loop's result satisfies all three bounds. -/
theorem c2_witness :
    1 ≤ 3 ∧
      ((1 ≤ (runFullCouncilRounds constantRound 3).length ∧
          (runFullCouncilRounds constantRound 3).length ≤ 3) ∧
        (∀ (j : Nat), j + 1 < (runFullCouncilRounds constantRound 3).length →
          ∃ round, (runFullCouncilRounds constantRound 3)[j]? = some round ∧
            avgConfidence round.responses ≤ 95/100) ∧
        ((runFullCouncilRounds constantRound 3).length = 3 ∨
          ∃ lastRound, (runFullCouncilRounds constantRound 3).getLast? = some lastRound ∧
            avgConfidence lastRound.responses > 95/100)) :=
  ⟨by decide, c2_discussion_loop_bounds constantRound 3 (by decide)⟩

/-! ## C3: per-agent failure isolation in a discussion stage -/

theorem processDiscussionResults_all_ok (jsonLoads : JsonLoads) (rn : Nat) :
    ∀ (models : List Model) (results : List GatewayResult),
      results.length = models.length →
      (∀ r ∈ results, ∃ t, r = GatewayResult.ok t ∧
        (parseDiscussionResult jsonLoads t).isSome) →
      ∃ ts, processDiscussionResults jsonLoads models results rn = some ts ∧
        ts.length = models.length := by
  intro models
  induction models with
  | nil =>
    intro results hlen _
    refine ⟨[], ?_, rfl⟩
    cases results with
    | nil => rfl
    | cons r rs => simp at hlen
  | cons m ms ih =>
    intro results hlen hok
    cases results with
    | nil => simp at hlen
    | cons r rs =>
      obtain ⟨t, rfl, hparse⟩ := hok r (List.mem_cons_self _ _)
      have hsome : (processDiscussionResult jsonLoads m rn (GatewayResult.ok t)).isSome := by
        simpa [processDiscussionResult] using hparse
      obtain ⟨th, hth⟩ := Option.isSome_iff_exists.mp hsome
      obtain ⟨ts, hts, htslen⟩ := ih rs (by simpa using hlen)
        (fun x hx => hok x (List.mem_cons_of_mem _ hx))
      refine ⟨th :: ts, ?_, ?_⟩
      · simp only [processDiscussionResults, hth, hts]
      · simp [htslen]

/-- The degraded turn `run_discussion_round` builds for a failing agent. -/
def degradedTurn (m : Model) (e : Str) (rn : Nat) : ModelMessageResponse :=
  { model_id := m.id, model_name := m.name, model_color := m.color
  , content := "Ошибка: ".data ++ e, confidence := 0, key_points := []
  , stage := .discussion, round_number := rn }

/-- C3 amended.  If the gateway fails for exactly one agent `j` of a
discussion stage and every other agent's text parses without tripping the
unterminated-fence `IndexError` (see the C4 defect), the stage returns one
turn per roster model; agent `j`'s turn is the degraded turn (confidence
0, explicit error marker, empty key points) and every other agent's turn
is exactly the turn of the hypothetical failure-free run. -/
theorem c3_failure_isolation (jsonLoads : JsonLoads) (rn : Nat) :
    ∀ (models : List Model) (resultsOk : List GatewayResult) (j : Nat) (e : Str),
      resultsOk.length = models.length →
      j < models.length →
      (∀ r ∈ resultsOk, ∃ t, r = GatewayResult.ok t ∧
        (parseDiscussionResult jsonLoads t).isSome) →
      ∃ turns turnsOk,
        processDiscussionResults jsonLoads models
          (resultsOk.set j (GatewayResult.err e)) rn = some turns ∧
        processDiscussionResults jsonLoads models resultsOk rn = some turnsOk ∧
        turns.length = models.length ∧ turnsOk.length = models.length ∧
        (∃ m, models[j]? = some m ∧ turns[j]? = some (degradedTurn m e rn)) ∧
        (∀ k, k ≠ j → turns[k]? = turnsOk[k]?) := by
  intro models
  induction models with
  | nil =>
    intro _ j _ _ hj _
    simp at hj
  | cons m ms ih =>
    intro resultsOk j e hlen hj hok
    cases resultsOk with
    | nil => simp at hlen
    | cons r rs =>
      obtain ⟨t, rfl, hparse⟩ := hok r (List.mem_cons_self _ _)
      have hsome : (processDiscussionResult jsonLoads m rn (GatewayResult.ok t)).isSome := by
        simpa [processDiscussionResult] using hparse
      obtain ⟨th, hth⟩ := Option.isSome_iff_exists.mp hsome
      cases j with
      | zero =>
        obtain ⟨ts, hts, htslen⟩ := processDiscussionResults_all_ok jsonLoads rn ms rs
          (by simpa using hlen) (fun x hx => hok x (List.mem_cons_of_mem _ hx))
        refine ⟨degradedTurn m e rn :: ts, th :: ts, ?_, ?_, by simp [htslen],
          by simp [htslen], ⟨m, by simp, by simp⟩, ?_⟩
        · simp only [List.set_cons_zero, processDiscussionResults,
            processDiscussionResult, hts, degradedTurn]
        · simp only [processDiscussionResults, hth, hts]
        · intro k hk
          cases k with
          | zero => exact absurd rfl hk
          | succ k => simp
      | succ j =>
        obtain ⟨turns, turnsOk, h1, h2, h3, h4, ⟨m2, hm2, hdeg⟩, hoff⟩ :=
          ih rs j e (by simpa using hlen) (by simpa using hj)
            (fun x hx => hok x (List.mem_cons_of_mem _ hx))
        refine ⟨th :: turns, th :: turnsOk, ?_, ?_, by simp [h3], by simp [h4],
          ⟨m2, by simpa using hm2, by simpa using hdeg⟩, ?_⟩
        · simp only [List.set_cons_succ, processDiscussionResults, hth, h1]
        · simp only [processDiscussionResults, hth, h2]
        · intro k hk
          cases k with
          | zero => simp
          | succ k =>
            have : k ≠ j := fun he => hk (by rw [he])
            simpa using hoff k this

/-- C3 counterexample: the claim as stated fails.  With the gateway
failing for exactly agent 0 of the configured two-model roster and agent 1
returning the three-character text `"```"`, the discussion-stage result
loop raises an uncaught `IndexError` instead of returning two turns. -/
theorem c3_counterexample :
    processDiscussionResults (fun _ => none) COUNCIL_MODELS
      [GatewayResult.err "timeout".data, GatewayResult.ok "```".data] 1 = none := by
  rfl

/-- C3 witness: the amended isolation theorem evaluated on a concrete
two-model stage with agent 0 timing out. -/
theorem c3_witness :
    ([GatewayResult.ok "Ответ А".data, GatewayResult.ok "Ответ Б".data].length =
        [exmA, exmB].length ∧ 0 < [exmA, exmB].length) ∧
    (∃ turns turnsOk,
      processDiscussionResults (fun _ => none) [exmA, exmB]
        ([GatewayResult.ok "Ответ А".data, GatewayResult.ok "Ответ Б".data].set 0
          (GatewayResult.err "timeout".data)) 1 = some turns ∧
      processDiscussionResults (fun _ => none) [exmA, exmB]
        [GatewayResult.ok "Ответ А".data, GatewayResult.ok "Ответ Б".data] 1 =
          some turnsOk ∧
      turns.length = [exmA, exmB].length ∧ turnsOk.length = [exmA, exmB].length ∧
      (∃ m, [exmA, exmB][0]? = some m ∧
        turns[0]? = some (degradedTurn m "timeout".data 1)) ∧
      (∀ k, k ≠ 0 → turns[k]? = turnsOk[k]?)) :=
  ⟨⟨rfl, by decide⟩,
    c3_failure_isolation (fun _ => none) 1 [exmA, exmB]
      [GatewayResult.ok "Ответ А".data, GatewayResult.ok "Ответ Б".data] 0
      "timeout".data rfl (by decide)
      (by
        intro r hr
        rcases List.mem_cons.mp hr with rfl | hr2
        · exact ⟨"Ответ А".data, rfl, by decide⟩
        · rcases List.mem_cons.mp hr2 with rfl | hr3
          · exact ⟨"Ответ Б".data, rfl, by decide⟩
          · cases hr3)⟩

/-! ## C4: the lenient structured-output parse -/

/-- C4.  The lenient-parse policy holds on the decode side — a fenced
valid payload yields the payload's fields, an undecodable text falls back
to `(raw, 0.8, [])` — but the parse step *can* raise a hard failure: any
text that (after stripping) opens a code fence and contains no newline
makes `clean_result.split("\n", 1)[1]` raise an `IndexError` that the
`except (json.JSONDecodeError, AttributeError)` clause does not catch, so
the whole stage aborts.  The first two conjuncts evaluate the code at
such failing inputs; the last two evaluate the documented lenient
behaviour. -/
theorem c4_parse_fence_crash :
    parseDiscussionResult (fun _ => none) ("```".data) = none ∧
    parseDiscussionResult (fun _ => none) (" ```речь``` ".data) = none ∧
    parseDiscussionResult (fun _ => none) ("это не JSON".data) =
      some ("это не JSON".data, 8/10, []) ∧
    parseDiscussionResult
      (fun s => if s = "\x7b\"c\":1\x7d\n".data then
          some { content := some ("Ответ".data), confidence := some (9/10)
               , key_points := some ["пункт".data] }
        else none)
      ("```json\n\x7b\"c\":1\x7d\n```".data) = some ("Ответ".data, 9/10, ["пункт".data]) :=
  ⟨rfl, rfl, rfl, rfl⟩

/-! ## C5: the initial stage -/

/-- C5.  For every roster with exactly one chair and `N ≥ 1` entries (and
one gateway result per entry, as `parallel_completions` guarantees),
`run_initial_stage` returns exactly `N` turns, one per roster entry in
roster order, each with `round_number = 0` and `stage = initial`. -/
theorem c5_initial_stage_roster_order (models : List Model)
    (results : List GatewayResult) (N : Nat)
    (hm : models.length = N) (hr : results.length = N) (hN : 1 ≤ N)
    (hchair : (models.filter (fun m => m.role == "chairman".data)).length = 1) :
    (runInitialStageTurns models results).length = N ∧
    (∀ k, k < N → ∃ m r, models[k]? = some m ∧ results[k]? = some r ∧
      (runInitialStageTurns models results)[k]? = some (processInitialResult m r)) ∧
    (∀ m r, (processInitialResult m r).round_number = 0 ∧
      (processInitialResult m r).stage = StageType.initial ∧
      (processInitialResult m r).model_id = m.id ∧
      (processInitialResult m r).model_name = m.name) := by
  refine ⟨?_, ?_, ?_⟩
  · simp [runInitialStageTurns, hm, hr]
  · intro k hk
    have hkm : k < models.length := by omega
    have hkr : k < results.length := by omega
    have hkz : k < (models.zip results).length := by
      simp [List.length_zip]; omega
    refine ⟨models.get ⟨k, hkm⟩, results.get ⟨k, hkr⟩,
      by simp [List.getElem?_eq_getElem hkm], by simp [List.getElem?_eq_getElem hkr], ?_⟩
    rw [runInitialStageTurns, List.getElem?_map, List.getElem?_eq_getElem hkz,
      List.getElem_zip]
    rfl
  · intro m r
    cases r <;> simp [processInitialResult]

/-- C5 witness: the configured two-model roster with two successful
results. -/
theorem c5_witness :
    (COUNCIL_MODELS.length = 2 ∧ [GatewayResult.ok "a".data, GatewayResult.ok "b".data].length = 2 ∧
      1 ≤ 2 ∧ (COUNCIL_MODELS.filter (fun m => m.role == "chairman".data)).length = 1) ∧
    ((runInitialStageTurns COUNCIL_MODELS
        [GatewayResult.ok "a".data, GatewayResult.ok "b".data]).length = 2 ∧
      (∀ k, k < 2 → ∃ m r, COUNCIL_MODELS[k]? = some m ∧
        [GatewayResult.ok "a".data, GatewayResult.ok "b".data][k]? = some r ∧
        (runInitialStageTurns COUNCIL_MODELS
          [GatewayResult.ok "a".data, GatewayResult.ok "b".data])[k]? =
            some (processInitialResult m r)) ∧
      (∀ m r, (processInitialResult m r).round_number = 0 ∧
        (processInitialResult m r).stage = StageType.initial ∧
        (processInitialResult m r).model_id = m.id ∧
        (processInitialResult m r).model_name = m.name)) :=
  ⟨⟨rfl, rfl, by decide, by decide⟩,
    c5_initial_stage_roster_order COUNCIL_MODELS
      [GatewayResult.ok "a".data, GatewayResult.ok "b".data] 2 rfl rfl (by decide)
      (by decide)⟩

/-! ## C6: the consensus stage -/

theorem splitOnP_append_sep {α : Type} (p : α → Bool) (sep : α) (hsep : p sep = true) :
    ∀ xs ys : List α, (xs ++ sep :: ys).splitOnP p = xs.splitOnP p ++ ys.splitOnP p := by
  intro xs
  induction xs with
  | nil => intro ys; simp [List.splitOnP_cons, hsep, List.splitOnP_nil]
  | cons x xs ih =>
    intro ys
    by_cases h : p x = true
    · simp [List.splitOnP_cons, h, ih]
    · obtain ⟨hd, tl, he⟩ : ∃ hd tl, xs.splitOnP p = hd :: tl := by
        cases hx : xs.splitOnP p with
        | nil => exact absurd hx (List.splitOnP_ne_nil p xs)
        | cons hd tl => exact ⟨hd, tl, rfl⟩
      simp [List.splitOnP_cons, h, ih, he]

theorem isPrefixOf_append_self (l t : Str) : l.isPrefixOf (l ++ t) = true := by
  induction l with
  | nil => simp [List.isPrefixOf]
  | cons a as ih => simp [List.isPrefixOf, ih]

theorem isSuffixOf_append_self (t l : Str) : t.isSuffixOf (l ++ t) = true := by
  simp [List.isSuffixOf, List.reverse_append, isPrefixOf_append_self]

theorem pyStrip_of_ends {c : Char} (hws : c.isWhitespace = false) (mid : Str) :
    pyStrip (c :: mid ++ [c]) = c :: mid ++ [c] := by
  simp [pyStrip, stripLeft, List.dropWhile_cons, hws, List.reverse_append,
    List.dropWhile_append]

/-- C6 amended.  The consensus stage always reports `reached = true`, and
`final_text` is the raw chairman text stripped of surrounding whitespace
and of at most one enclosing code fence: when the stripped text does not
both open and close with a fence it is used as-is; when it is of the shape
`"```<lang>\n<body>\n```"` the fence lines are removed and the remaining
`body` is whitespace-stripped.  (The claim's "used verbatim" fails: the
code also strips whitespace — see the counterexample.) -/
theorem c6_consensus_amended :
    (∀ raw : Str, (runConsensusResponse raw).consensus_reached = true) ∧
    (∀ raw : Str,
      ("```".data.isPrefixOf (pyStrip raw) && "```".data.isSuffixOf (pyStrip raw)) = false →
        (runConsensusResponse raw).final_answer = pyStrip raw) ∧
    (∀ lang body : Str, '\n' ∉ lang →
      (runConsensusResponse
        ("```".data ++ lang ++ "\n".data ++ body ++ "\n```".data)).final_answer =
        pyStrip body) := by
  refine ⟨fun raw => rfl, ?_, ?_⟩
  · intro raw h
    simp only [runConsensusResponse, stripConsensusAnswer, h, Bool.false_eq_true,
      if_false]
  · intro lang body hlang
    obtain ⟨bt, hbt, hbtws⟩ :
        ∃ bt : Char, "```".data = [bt, bt, bt] ∧ bt.isWhitespace = false :=
      ⟨("```".data).headI, rfl, rfl⟩
    have hform : "```".data ++ lang ++ "\n".data ++ body ++ "\n```".data =
        bt :: (bt :: bt :: lang ++ '\n' :: body ++ ['\n', bt, bt]) ++ [bt] := by
      have hnl : "\n```".data = '\n' :: "```".data := rfl
      rw [hnl, hbt]
      simp
    have hstrip : pyStrip ("```".data ++ lang ++ "\n".data ++ body ++ "\n```".data) =
        "```".data ++ lang ++ "\n".data ++ body ++ "\n```".data := by
      rw [hform, pyStrip_of_ends hbtws]
    have hpre : "```".data.isPrefixOf
        ("```".data ++ lang ++ "\n".data ++ body ++ "\n```".data) = true := by
      have : "```".data ++ lang ++ "\n".data ++ body ++ "\n```".data =
          "```".data ++ (lang ++ "\n".data ++ body ++ "\n```".data) := by
        simp
      rw [this, isPrefixOf_append_self]
    have hsuf : "```".data.isSuffixOf
        ("```".data ++ lang ++ "\n".data ++ body ++ "\n```".data) = true := by
      have : "```".data ++ lang ++ "\n".data ++ body ++ "\n```".data =
          ("```".data ++ lang ++ "\n".data ++ body ++ ['\n']) ++ "```".data := by
        simp
      rw [this, isSuffixOf_append_self]
    have hxs : ∀ x ∈ ("```".data ++ lang), ¬((x == '\n') = true) := by
      intro x hx
      simp only [beq_iff_eq]
      rcases List.mem_append.mp hx with h | h
      · intro he
        subst he
        exact absurd h (by decide)
      · exact fun he => hlang (he ▸ h)
    have hfence : ("```".data).splitOnP (fun x => x == '\n') = ["```".data] := by decide
    have hsplit : splitChar '\n'
        ("```".data ++ lang ++ "\n".data ++ body ++ "\n```".data) =
        ("```".data ++ lang) :: (splitChar '\n' body ++ ["```".data]) := by
      have h1 : "```".data ++ lang ++ "\n".data ++ body ++ "\n```".data =
          ("```".data ++ lang) ++ '\n' :: (body ++ '\n' :: "```".data) := by
        simp
      rw [splitChar, List.splitOn, h1,
        List.splitOnP_first _ _ hxs '\n' (by simp) (body ++ '\n' :: "```".data),
        splitOnP_append_sep (fun x => x == '\n') '\n' (by simp) body ("```".data),
        hfence]
      rfl
    have hcond : ("```".data.isPrefixOf
          ("```".data ++ lang ++ "\n".data ++ body ++ "\n```".data) &&
        "```".data.isSuffixOf
          ("```".data ++ lang ++ "\n".data ++ body ++ "\n```".data)) = true := by
      rw [hpre, hsuf]
      rfl
    simp only [runConsensusResponse, stripConsensusAnswer, hstrip]
    rw [if_pos hcond, hsplit]
    simp only [List.drop_succ_cons, List.drop_zero, List.dropLast_concat, joinLines,
      splitChar]
    rw [List.intercalate_splitOn]

/-- C6 counterexample: the claim's "otherwise used verbatim" is false —
for the fence-free chairman text `"x\n"` the stage returns `"x"`, not the
raw text (the code strips surrounding whitespace). -/
theorem c6_counterexample :
    (runConsensusResponse ("x\n".data)).final_answer = "x".data ∧
      "x".data ≠ "x\n".data ∧
      "```".data.isPrefixOf ("x\n".data) = false :=
  ⟨rfl, by decide, rfl⟩

/-- C6 witness: the amended description evaluated on a fenced chairman
answer and on a plain one. -/
theorem c6_witness :
    ('\n' ∉ ("md".data) ∧
      (runConsensusResponse
        ("```".data ++ "md".data ++ "\n".data ++ "Ответ совета".data ++ "\n```".data)).final_answer =
        pyStrip ("Ответ совета".data)) ∧
    (runConsensusResponse ("привет".data)).consensus_reached = true :=
  ⟨⟨by decide,
      c6_consensus_amended.2.2 ("md".data) ("Ответ совета".data) (by decide)⟩,
    c6_consensus_amended.1 ("привет".data)⟩

/-! ## C7: confidence bounds -/

/-- C7 counterexample: the code does not validate the decoded confidence.
A discussion-stage payload carrying `"confidence": 2` produces a turn with
confidence 2, outside `[0, 1]` (`ModelMessageResponse` in `schemas.py`
declares `confidence: float` with no bounds, and `run_discussion_round`
copies `parsed.get("confidence", 0.8)` unchecked). -/
theorem c7_counterexample :
    (processDiscussionResult
      (fun _ => some { content := some ("ок".data), confidence := some 2
                     , key_points := some [] })
      exmA 1 (GatewayResult.ok ("\x7b\x7d".data))).map (fun t => t.confidence) = some 2 ∧
    ¬((2 : ℚ) ≤ 1) :=
  ⟨rfl, by norm_num⟩

/-- C7 amended.  Initial-stage turns always have confidence in `[0, 1]`
(0 on failure, 0.8 on success); a discussion-stage turn has confidence in
`[0, 1]` *provided* every successfully decoded payload's confidence is —
the error path gives 0, the fallback and the missing-key default give
0.8, and a decoded confidence is copied unvalidated. -/
theorem c7_confidence_amended :
    (∀ (m : Model) (r : GatewayResult),
      0 ≤ (processInitialResult m r).confidence ∧
        (processInitialResult m r).confidence ≤ 1) ∧
    (∀ jsonLoads : JsonLoads,
      (∀ s p, jsonLoads s = some p → ∀ c ∈ p.confidence, 0 ≤ c ∧ c ≤ 1) →
      ∀ (m : Model) (rn : Nat) (res : GatewayResult) (turn : ModelMessageResponse),
        processDiscussionResult jsonLoads m rn res = some turn →
        0 ≤ turn.confidence ∧ turn.confidence ≤ 1) := by
  constructor
  · intro m r
    cases r <;> simp [processInitialResult] <;> norm_num
  · intro jl hjl m rn res turn hproc
    cases res with
    | err msg =>
      simp only [processDiscussionResult, Option.some.injEq] at hproc
      rw [← hproc]
      norm_num
    | ok text =>
      simp only [processDiscussionResult] at hproc
      cases hp : parseDiscussionResult jl text with
      | none => rw [hp] at hproc; simp at hproc
      | some v =>
        rw [hp] at hproc
        simp at hproc
        rw [← hproc]
        unfold parseDiscussionResult at hp
        split at hp
        · exact absurd hp (by simp)
        · next clean hsc =>
          split at hp
          · next parsed hjlc =>
            simp only [Option.some.injEq] at hp
            rw [← hp]
            cases hc : parsed.confidence with
            | none => simp only [hc, Option.getD_none]; norm_num
            | some c =>
              have hb := hjl clean parsed hjlc c (Option.mem_def.mpr hc)
              simpa [hc] using hb
          · simp only [Option.some.injEq] at hp
            rw [← hp]
            norm_num

/-- C7 witness: the amended bounds evaluated on a successful initial turn
and on a fallback discussion turn. -/
theorem c7_witness :
    (0 ≤ (processInitialResult exmA (GatewayResult.ok ("x".data))).confidence ∧
      (processInitialResult exmA (GatewayResult.ok ("x".data))).confidence ≤ 1) ∧
    (0 ≤ (exRoundResp.content, exRoundResp.confidence, exRoundResp.key_points).2.1 ∧
      (exRoundResp.content, exRoundResp.confidence, exRoundResp.key_points).2.1 ≤ 1) := by
  constructor
  · exact c7_confidence_amended.1 exmA (GatewayResult.ok ("x".data))
  · exact c7_confidence_amended.2 (fun _ => none) (fun s p h => nomatch h) exmA 1
      (GatewayResult.ok ("SELF".data))
      { model_id := "a".data, model_name := "A".data, model_color := "#".data
      , content := "SELF".data, confidence := 8/10, key_points := []
      , stage := .discussion, round_number := 1 } rfl

/-! ## C8: chair selection -/

/-- C8 counterexample: with *two* chairs configured the process does not
fail — `next(...)` silently returns the first chair, so "fails iff zero or
more than one chair" is false on the more-than-one side. -/
theorem c8_counterexample :
    chairmanModel
      [ { id := "m1".data, name := "M1".data, role := "chairman".data, color := "#".data }
      , { id := "m2".data, name := "M2".data, role := "chairman".data, color := "#".data } ] =
      some { id := "m1".data, name := "M1".data, role := "chairman".data, color := "#".data } ∧
    ([ ({ id := "m1".data, name := "M1".data, role := "chairman".data, color := "#".data } : Model)
     , { id := "m2".data, name := "M2".data, role := "chairman".data, color := "#".data } ].filter
        (fun x => x.role == "chairman".data)).length = 2 :=
  ⟨rfl, rfl⟩

/-- C8 amended.  Roster initialization fails fast iff the configured set
has *zero* chairs; whenever at least one chair exists it succeeds and
returns the first chair in roster order — in particular, with exactly one
chair, `chair()` is that agent. -/
theorem c8_chair_selection_amended :
    (∀ models : List Model,
      chairmanModel models = none ↔ ∀ m ∈ models, ¬ m.role = "chairman".data) ∧
    (∀ (models : List Model) (m : Model), m ∈ models → m.role = "chairman".data →
      (models.filter (fun x => x.role == "chairman".data)).length = 1 →
      chairmanModel models = some m) := by
  constructor
  · intro models
    rw [chairmanModel, List.find?_eq_none]
    constructor
    · intro h m hm
      simpa using h m hm
    · intro h m hm
      simpa using h m hm
  · intro models m hm hrole hcount
    have hsome : (models.find? (fun x => x.role == "chairman".data)).isSome := by
      rw [List.find?_isSome]
      exact ⟨m, hm, by simpa using hrole⟩
    obtain ⟨y, hy⟩ := Option.isSome_iff_exists.mp hsome
    have hyp := List.find?_some hy
    have hymem : y ∈ models := List.mem_of_find?_eq_some hy
    obtain ⟨z, hz⟩ := List.length_eq_one.mp hcount
    have hmz : m ∈ models.filter (fun x => x.role == "chairman".data) :=
      List.mem_filter.mpr ⟨hm, by simpa using hrole⟩
    have hyz : y ∈ models.filter (fun x => x.role == "chairman".data) :=
      List.mem_filter.mpr ⟨hymem, by simpa using hyp⟩
    rw [hz] at hmz hyz
    have h1 : m = z := by simpa using hmz
    have h2 : y = z := by simpa using hyz
    rw [chairmanModel, hy, h2, ← h1]

/-- C8 witness: the configured roster has exactly one chair, and chair
selection returns it. -/
theorem c8_witness :
    ((COUNCIL_MODELS.filter (fun x => x.role == "chairman".data)).length = 1) ∧
    chairmanModel COUNCIL_MODELS = some
      { id := "openai/gpt-5.1".data, name := "GPT-5.1".data
      , role := "chairman".data, color := "#10a37f".data } :=
  ⟨by decide,
    c8_chair_selection_amended.2 COUNCIL_MODELS
      { id := "openai/gpt-5.1".data, name := "GPT-5.1".data
      , role := "chairman".data, color := "#10a37f".data }
      (by decide) rfl (by decide)⟩

/-! ## C10: chat-history compaction -/

/-- C10 counterexample: the *total* output is not bounded by the budget.
With budget 10 and one long message, the produced string (header line plus
omission marker) has 55 characters — the loop counts only the message
lines, not the header, the marker, or the joining newlines. -/
theorem c10_counterexample :
    10 < (formatChatHistoryToon
      [{ role := "user".data, content := "aaaaaaaaaaaa".data }] 10).length := by
  decide

/-- C10 amended.  The compaction loop takes messages in list order: it
emits the lines of a prefix of the messages, appends the omission marker
iff it stopped early, and keeps the *sum of the emitted message-line
lengths* (plus the starting total) within the budget; each message line is
at most 509 characters (3-character role tag, a space, content truncated
to 500 plus a 5-character ellipsis).  The header line, the omission
marker and the joining newlines are not counted against the budget, so
the full string may exceed it. -/
theorem c10_toon_budget_amended :
    (∀ (msgs : List ChatMessage) (maxChars total : Nat), total ≤ maxChars →
      ∃ k, toonLoop msgs maxChars total = (msgs.take k).map toonLine ++
          (if k < msgs.length then [omittedMarker] else []) ∧
        (((msgs.take k).map toonLine).map List.length).sum + total ≤ maxChars) ∧
    (∀ msg : ChatMessage, (toonLine msg).length ≤ 509) := by
  constructor
  · intro msgs
    induction msgs with
    | nil =>
      intro maxChars total htot
      exact ⟨0, by simp [toonLoop], by simpa using htot⟩
    | cons m rest ih =>
      intro maxChars total htot
      by_cases h : total + (toonLine m).length > maxChars
      · refine ⟨0, ?_, by simpa using htot⟩
        simp [toonLoop, h]
      · obtain ⟨k, hk1, hk2⟩ := ih maxChars (total + (toonLine m).length) (by omega)
        refine ⟨k + 1, ?_, ?_⟩
        · simp only [toonLoop, h, if_false]
          rw [hk1]
          simp [Nat.succ_lt_succ_iff]
        · simp only [List.take_succ_cons, List.map_cons, List.sum_cons]
          omega
  · intro msg
    have h3 : (if msg.role == "user".data then "[U]".data else "[A]".data).length = 3 := by
      split <;> rfl
    simp only [toonLine, List.length_append, h3]
    by_cases h : (pyStrip (msg.content.map fun c => if c = '\n' then ' ' else c)).length > 500
    · simp [h]
      omega
    · simp [h]
      omega

/-- C10 witness: a short history within budget is emitted in full, and
the line-length bound holds on it. -/
theorem c10_witness :
    (0 ≤ 10 ∧
      ∃ k, toonLoop [{ role := "user".data, content := "привет".data }] 10 0 =
          (([{ role := "user".data, content := "привет".data }] :
            List ChatMessage).take k).map toonLine ++
          (if k < ([{ role := "user".data, content := "привет".data }] :
            List ChatMessage).length then [omittedMarker] else []) ∧
        (((([{ role := "user".data, content := "привет".data }] :
          List ChatMessage).take k).map toonLine).map List.length).sum + 0 ≤ 10) ∧
    (toonLine { role := "user".data, content := "привет".data }).length ≤ 509 :=
  ⟨⟨by decide,
      c10_toon_budget_amended.1 [{ role := "user".data, content := "привет".data }] 10 0
        (by decide)⟩,
    c10_toon_budget_amended.2 { role := "user".data, content := "привет".data }⟩

end Council
